import Mathlib

/-!
Verification development for the bank-statement extraction dashboards
(citibank / UOB statement parsers, field reconciliation, merchant
normalization and the merchant→category mapping store).

The Python sources are shallowly embedded: strings are `List Char`,
monetary amounts are integer cents (`Nat`, or `Int` where signs occur),
`None`/`NaN` cells are `Option`, and the handful of regular expressions
used by the parsers are executed by a small backtracking matcher
(`reMatch`) that follows CPython `re` semantics: leftmost match,
alternation tries the left branch first, greedy quantifiers consume as
much as possible first, lazy quantifiers as little as possible first.
-/

namespace CitiDash

/-! ## Python string primitives -/

/-- Python `str` whitespace (`str.strip`, `\s`): space, tab, newline,
carriage return, vertical tab, form feed. -/
def isPySpace (c : Char) : Bool :=
  c = ' ' || c = '\t' || c = '\n' || c = '\r' || c = '\x0b' || c = '\x0c'

def isAsciiDigit (c : Char) : Bool := '0' ≤ c && c ≤ '9'

def isAsciiUpper (c : Char) : Bool := 'A' ≤ c && c ≤ 'Z'

def isAsciiLower (c : Char) : Bool := 'a' ≤ c && c ≤ 'z'

def isAsciiLetter (c : Char) : Bool := isAsciiUpper c || isAsciiLower c

/-- Regex `\w`: letters, digits, underscore (ASCII inputs). -/
def isWordChar (c : Char) : Bool := isAsciiLetter c || isAsciiDigit c || c = '_'

/-- ASCII upcasing, as CPython does for ASCII text. -/
def pyToUpper (c : Char) : Char :=
  if isAsciiLower c then Char.ofNat (c.toNat - 32) else c

/-- ASCII downcasing. -/
def pyToLower (c : Char) : Char :=
  if isAsciiUpper c then Char.ofNat (c.toNat + 32) else c

def strUpper (s : List Char) : List Char := s.map pyToUpper

def strLower (s : List Char) : List Char := s.map pyToLower

/-- Python `str.lstrip()`. -/
def pyStripL (s : List Char) : List Char := s.dropWhile isPySpace

/-- Python `str.rstrip()`. -/
def pyStripR (s : List Char) : List Char := (s.reverse.dropWhile isPySpace).reverse

/-- Python `str.strip()`. -/
def pyStrip (s : List Char) : List Char := pyStripR (pyStripL s)

/-- Python `str.isupper()`: at least one cased character and no lowercase
cased character (ASCII). -/
def pyIsUpper (s : List Char) : Bool :=
  s.all (fun c => !isAsciiLower c) && s.any isAsciiUpper

/-- Does `small` occur as a contiguous prefix of `big`? -/
def startsWithL : List Char → List Char → Bool
  | [], _ => true
  | _ :: _, [] => false
  | a :: as, b :: bs => a = b && startsWithL as bs

/-- Python `needle in haystack` substring test. -/
def containsSub (needle : List Char) : List Char → Bool
  | [] => startsWithL needle []
  | c :: rest => startsWithL needle (c :: rest) || containsSub needle rest

/-- Python `str.endswith`. -/
def endsWithL (suffix s : List Char) : Bool :=
  startsWithL suffix.reverse s.reverse

/-- Python `str.split(sep)` for a one-character separator. -/
def splitOnChar (sep : Char) : List Char → List (List Char)
  | [] => [[]]
  | c :: rest =>
    let r := splitOnChar sep rest
    if c = sep then [] :: r
    else match r with
      | [] => [[c]]
      | w :: ws => (c :: w) :: ws

/-- Python `str.split()` with no argument: split on whitespace runs,
dropping empty fields. -/
def splitWS (s : List Char) : List (List Char) :=
  ((splitOnChar ' ' (s.map (fun c => if isPySpace c then ' ' else c))).filter
    (fun w => w ≠ []))

/-- Render a natural number in decimal, as Python string formatting does. -/
def natStr (n : Nat) : List Char := (Nat.repr n).data

/-! ## Decimal-amount parsing

All monetary amounts in the statements match `\d+\.\d{2}` after comma
removal, so `float(...)` on them is total; we model the value in integer
cents. -/

def digitsVal : List Char → Option Nat
  | [] => none
  | ds =>
    if ds.all isAsciiDigit then
      some (ds.foldl (fun acc c => acc * 10 + (c.toNat - '0'.toNat)) 0)
    else none

/-- Python `float(s.replace(',', ''))` on a `\d+\.\d{2}`-shaped string,
in cents. Returns `none` on any other shape (such strings never reach the
conversion in the pipelines, since every amount is produced by an amount
regex). -/
def parseCents (s : List Char) : Option Nat :=
  let s := s.filter (fun c => c ≠ ',')
  let intPart := s.takeWhile (fun c => c ≠ '.')
  match s.dropWhile (fun c => c ≠ '.') with
  | '.' :: f1 :: f2 :: [] =>
    match digitsVal intPart, digitsVal [f1, f2] with
    | some i, some f => some (i * 100 + f)
    | _, _ => none
  | _ => none

/-- Signed variant (citibank amounts match `-?\d+\.\d{2}`), in cents. -/
def parseCentsZ (s : List Char) : Option Int :=
  match s with
  | '-' :: rest => (parseCents rest).map (fun n => -(n : Int))
  | _ => (parseCents s).map (fun n => (n : Int))

/-! ## A small backtracking regex engine

Character classes and the regex AST cover exactly the constructs used by
the five source files. `reMatch` is continuation-passing; the `fuel`
argument only bounds star unrolling (each unrolling must consume at least
one character, so `input length + 1` fuel is always enough). -/

inductive CC where
  | digit
  | space
  | wordc
  | upperAZ
  | anyNN
  | lit (c : Char)
  | litCI (c : Char)
  | numSpacePunct
  | descChar
  | notAlnumSpace
  | notLetter
  deriving Repr, DecidableEq

def ccMatch : CC → Char → Bool
  | .digit, c => isAsciiDigit c
  | .space, c => isPySpace c
  | .wordc, c => isWordChar c
  | .upperAZ, c => isAsciiUpper c
  | .anyNN, c => c ≠ '\n'
  | .lit l, c => c = l
  | .litCI l, c => pyToUpper c = pyToUpper l
  | .numSpacePunct, c => isAsciiDigit c || isPySpace c || c = ',' || c = '.'
  | .descChar, c => isAsciiUpper c || isAsciiDigit c || c = ' ' || c = '-'
  | .notAlnumSpace, c => !(isAsciiLetter c || isAsciiDigit c || isPySpace c)
  | .notLetter, c => !isAsciiLetter c

inductive RE where
  | eps
  | one (cc : CC)
  | seq (a b : RE)
  | alt (a b : RE)
  | star (lazy : Bool) (a : RE)
  | look (a : RE)
  | nWord
  | eos
  | grp (i : Nat) (a : RE)
  deriving Repr

/-- Captured groups: group index → matched text. -/
def Caps := List (Nat × List Char)

def setCap (cs : Caps) (i : Nat) (v : List Char) : Caps :=
  (i, v) :: (cs : List (Nat × List Char)).filter (fun p => p.1 ≠ i)

def getCap (cs : Caps) (i : Nat) : Option (List Char) :=
  ((cs : List (Nat × List Char)).find? (fun p => p.1 = i)).map (fun p => p.2)

/-- Result continuation of the matcher: remaining input and captures. -/
def Cont := List Char → Caps → Option (List Char × Caps)

/-- One layer of the backtracking matcher, in continuation-passing style,
following CPython `re` priorities: `alt` prefers the left branch, greedy
`star` prefers consuming, lazy `star` prefers not consuming. `nWord` is
the trailing word boundary of a pattern ending in a word character;
`look` is a lookahead `(?=...)`; `eos` is `$` at true end of input.
Re-entering a star after one iteration goes through `next`, the matcher
with one unit less fuel; an iteration must consume at least one character
(every starred subpattern in the sources is non-nullable, and CPython
stops a star on an empty iteration as well), so fuel
`input length + 1` never runs out. -/
def reMatchStep (next : RE → List Char → Caps → Cont → Option (List Char × Caps)) :
    RE → List Char → Caps → Cont → Option (List Char × Caps)
  | .eps, s, cs, k => k s cs
  | .one cc, s, cs, k =>
    match s with
    | [] => none
    | c :: t => if ccMatch cc c then k t cs else none
  | .seq a b, s, cs, k =>
    reMatchStep next a s cs (fun s1 c1 => reMatchStep next b s1 c1 k)
  | .alt a b, s, cs, k =>
    match reMatchStep next a s cs k with
    | some r1 => some r1
    | none => reMatchStep next b s cs k
  | .star lz a, s, cs, k =>
    if lz then
      match k s cs with
      | some r1 => some r1
      | none =>
        reMatchStep next a s cs (fun s1 c1 =>
          if s1.length < s.length then next (.star lz a) s1 c1 k else none)
    else
      match reMatchStep next a s cs (fun s1 c1 =>
          if s1.length < s.length then next (.star lz a) s1 c1 k else none) with
      | some r1 => some r1
      | none => k s cs
  | .look a, s, cs, k =>
    match reMatchStep next a s cs (fun s1 c1 => some (s1, c1)) with
    | some (_, c1) => k s c1
    | none => none
  | .nWord, s, cs, k =>
    match s with
    | [] => k s cs
    | c :: _ => if isWordChar c then none else k s cs
  | .eos, s, cs, k =>
    match s with
    | [] => k s cs
    | _ :: _ => none
  | .grp i a, s, cs, k =>
    reMatchStep next a s cs (fun s1 c1 =>
      k s1 (setCap c1 i (s.take (s.length - s1.length))))

/-- Fuel-indexed backtracking matcher (fuel only bounds star unrolling). -/
def reMatch : Nat → RE → List Char → Caps → Cont → Option (List Char × Caps)
  | 0, _, _, _, _ => none
  | fuel + 1, r, s, cs, k => reMatchStep (reMatch fuel) r s cs k

/-- Anchored match attempt at the head of `s` (Python `re.match` /
the per-position step of `search`, `finditer`, `sub`). -/
def matchAt (r : RE) (s : List Char) : Option (List Char × Caps) :=
  reMatch (s.length + 1) r s [] (fun rest cs => some (rest, cs))

/-- A pattern together with the flag for a leading `\b` before a
word-character-initial pattern (the only `\b` form the sources use). -/
structure Pat where
  leftBoundary : Bool
  re : RE

/-- Try the pattern at the current position; `prev` is the character just
before the position (for the leading word boundary). Returns the number
of characters consumed and the captures. -/
def patAt (p : Pat) (prev : Option Char) (s : List Char) : Option (Nat × Caps) :=
  if p.leftBoundary && (match prev with | some c => isWordChar c | none => false) then
    none
  else
    (matchAt p.re s).map (fun rc => (s.length - rc.1.length, rc.2))

/-- Fueled scanner for `re.sub`; each call handles one position, so fuel
`input length` is always enough, and running out of fuel returns the
remaining input unchanged. -/
def subAllF (p : Pat) (repl : List Char) : Nat → Option Char → List Char → List Char
  | 0, _, s => s
  | _ + 1, _, [] => []
  | fuel + 1, prev, c :: rest =>
    match patAt p prev (c :: rest) with
    | some (n, _) =>
      if 0 < n then
        repl ++ subAllF p repl fuel (((c :: rest).take n).getLast?) ((c :: rest).drop n)
      else c :: subAllF p repl fuel (some c) rest
    | none => c :: subAllF p repl fuel (some c) rest

/-- Python `re.sub(pat, repl, s)`: replace every leftmost non-overlapping
match. All patterns in the sources match at least one character. -/
def subAll (p : Pat) (repl : List Char) (prev : Option Char) (s : List Char) : List Char :=
  subAllF p repl (s.length + 1) prev s

/-- Python `re.search`: captures of the leftmost match, if any. -/
def searchCaps (p : Pat) : Option Char → List Char → Option Caps
  | _, [] => none
  | prev, c :: rest =>
    match patAt p prev (c :: rest) with
    | some (_, cs) => some cs
    | none => searchCaps p (some c) rest

/-- Fueled scanner for `re.finditer` (fuel as in `subAllF`). -/
def findIterF (p : Pat) : Nat → Option Char → List Char → List Caps
  | 0, _, _ => []
  | _ + 1, _, [] => []
  | fuel + 1, prev, c :: rest =>
    match patAt p prev (c :: rest) with
    | some (n, cs) =>
      if 0 < n then
        cs :: findIterF p fuel (((c :: rest).take n).getLast?) ((c :: rest).drop n)
      else findIterF p fuel (some c) rest
    | none => findIterF p fuel (some c) rest

/-- Python `re.finditer`: captures of all leftmost non-overlapping
matches, scanning left to right. -/
def findIter (p : Pat) (prev : Option Char) (s : List Char) : List Caps :=
  findIterF p (s.length + 1) prev s

/-! ## The concrete regular expressions used by the sources -/

/-- Chain a list of regexes in sequence. -/
def seqs (rs : List RE) : RE := rs.foldr RE.seq .eps

/-- Case-insensitive literal word (`re.IGNORECASE`). -/
def ciWord (w : List Char) : RE := seqs (w.map (fun c => RE.one (.litCI c)))

/-- Case-sensitive literal word. -/
def csWord (w : List Char) : RE := seqs (w.map (fun c => RE.one (.lit c)))

/-- `\s+` (greedy). -/
def spacePlus : RE := .seq (.one .space) (.star false (.one .space))

/-- `\s*` (greedy). -/
def spaceStar : RE := .star false (.one .space)

/-- `\d+` (greedy). -/
def digitPlus : RE := .seq (.one .digit) (.star false (.one .digit))

/-- `\d{1,3}` (greedy: tries three digits, then two, then one). -/
def d13 : RE :=
  .seq (.one .digit) (.alt (.seq (.one .digit) (.alt (.one .digit) .eps)) .eps)

/-- `\d{1,2}` (greedy). -/
def d12 : RE := .seq (.one .digit) (.alt (.one .digit) .eps)

/-- `\d{2}`. -/
def d2 : RE := .seq (.one .digit) (.one .digit)

/-- `(?:,\d{3})`. -/
def commaTriple : RE :=
  .seq (.one (.lit ',')) (.seq (.one .digit) (.seq (.one .digit) (.one .digit)))

/-- `\d{1,3}(?:,\d{3})*\.\d{2}` — the ubiquitous amount pattern of the UOB
dashboards. -/
def amountRE : RE :=
  seqs [d13, .star false commaTriple, .one (.lit '.'), .one .digit, .one .digit]

/-- The amount pattern as a find-all pattern (whole match captured as
group 0). -/
def amountPat : Pat := ⟨false, .grp 0 amountRE⟩

/-- `re.match(r'^\d{1,3}(?:,\d{3})*\.\d{2}$', line)` as a Boolean: the
whole line is one amount. -/
def isAmountLine (line : List Char) : Bool :=
  (matchAt (.seq amountRE .eos) line).isSome

/-- `re.findall` of the amount pattern: the matched amount strings. -/
def findAmounts (s : List Char) : List (List Char) :=
  (findIter amountPat none s).filterMap (fun cs => getCap cs 0)

/-- `re.match(r'^[\d\s,.]+$', line)` as a Boolean (the guard in the
all-caps line test of the newline-pattern parser): nonempty and all
characters digits, whitespace, commas or dots. -/
def isNumSpacePunctLine (line : List Char) : Bool :=
  line ≠ [] && line.all (ccMatch .numSpacePunct)

/-- `\w{3}`. -/
def word3 : RE := seqs [.one .wordc, .one .wordc, .one .wordc]

/-- `(\d{1,2}\s+\w{3})` — the date search inside `finalize_transaction`. -/
def dateSearchPat : Pat := ⟨false, .grp 1 (seqs [d12, spacePlus, word3])⟩

/-- `\d+\.\d{2}` — the amount pattern of `extract_withdrawal`. -/
def ewAmountPat : Pat :=
  ⟨false, .grp 0 (seqs [digitPlus, .one (.lit '.'), .one .digit, .one .digit])⟩

/-- `\bSINGAPORE\s+SG\b` with `re.IGNORECASE`; the pattern starts and ends
in word characters, so the boundaries are a non-word-or-start left context
and a non-word-or-end right context. -/
def sgPat : Pat :=
  ⟨true, seqs [ciWord "SINGAPORE".data, spacePlus, ciWord "SG".data, .nWord]⟩

/-- `(?:Jan|Feb|Mar|Apr|May|Jun|Jul|Aug|Sep|Oct|Nov|Dec)` with
`re.IGNORECASE`, alternatives tried left to right. -/
def monthsAlt : RE :=
  [ "Jan", "Feb", "Mar", "Apr", "May", "Jun",
    "Jul", "Aug", "Sep", "Oct", "Nov", "Dec"
  ].foldr (fun m acc => RE.alt (ciWord m.data) acc) (ciWord "Dec".data)

/-- `\b\d{2}\s(?:Jan|...|Dec)\b` with `re.IGNORECASE` — the date-noise
removal inside the UOB credit-card `extract_alphabets`. -/
def dateNoisePat : Pat := ⟨true, seqs [d2, .one .space, monthsAlt, .nWord]⟩

/-- `\s{2,}` — whitespace-collapsing pattern. -/
def collapsePat : Pat := ⟨false, seqs [.one .space, .one .space, spaceStar]⟩

/-- `[^A-Za-z0-9\s]+`. -/
def specialsPat : Pat :=
  ⟨false, .seq (.one .notAlnumSpace) (.star false (.one .notAlnumSpace))⟩

/-- `[^A-Za-z]+`. -/
def nonLetterPat : Pat :=
  ⟨false, .seq (.one .notLetter) (.star false (.one .notLetter))⟩

/-! ### The UOB month-end statement regex

```
(?P<date>\d{2}\s\w{3})\s+
(?P<description>[A-Z0-9 -]+(?:\s[A-Z0-9 -]+)*)\s+
(?P<info>.*?)(?=\s+\d{1,3}(?:,\d{3})*\.\d{2}|\s{2,})
(?:(?P<withdrawal>\d{1,3}(?:,\d{3})*\.\d{2})|(?:-))?\s*
(?:(?P<deposit>\d{1,3}(?:,\d{3})*\.\d{2})|(?:-))?\s*
(?P<balance>\d{1,3}(?:,\d{3})*\.\d{2})
```
(`re.VERBOSE`: the literal spaces/newlines of the pattern are ignored;
the space inside the character class is kept). Group numbering used here:
1 date, 2 description, 3 info, 4 withdrawal, 5 deposit, 6 balance. -/

/-- `[A-Z0-9 -]+`. -/
def descPlus : RE := .seq (.one .descChar) (.star false (.one .descChar))

def meDate : RE := .grp 1 (seqs [d2, .one .space, word3])

def meDesc : RE := .grp 2 (.seq descPlus (.star false (.seq (.one .space) descPlus)))

/-- `(?P<info>.*?)` — lazy dot (no newline) star. -/
def meInfo : RE := .grp 3 (.star true (.one .anyNN))

/-- `(?=\s+\d{1,3}(?:,\d{3})*\.\d{2}|\s{2,})`. -/
def meLook : RE :=
  .look (.alt (.seq spacePlus amountRE) (seqs [.one .space, .one .space, spaceStar]))

/-- `(?:(?P<withdrawal>amount)|(?:-))?` (greedy optional). -/
def meWGroup : RE := .alt (.alt (.grp 4 amountRE) (.one (.lit '-'))) .eps

def meDGroup : RE := .alt (.alt (.grp 5 amountRE) (.one (.lit '-'))) .eps

def monthEndPat : Pat :=
  ⟨false, seqs [meDate, spacePlus, meDesc, spacePlus, meInfo, meLook,
                meWGroup, spaceStar, meDGroup, spaceStar, .grp 6 amountRE]⟩

/-! ### The citibank statement patterns

Group numbering: 1 date, 2 merchant, 3 amount, 4 ref. -/

/-- `(?P<date>\d{2}\s[A-Z]{3})`. -/
def cDateSp : RE :=
  .grp 1 (seqs [d2, .one .space, .one .upperAZ, .one .upperAZ, .one .upperAZ])

/-- `(?P<date>\d{2}/\d{2})`. -/
def cDateSlash : RE := .grp 1 (seqs [d2, .one (.lit '/'), d2])

/-- `(?P<merchant>.+?)` — lazy one-or-more of dot (no newline). -/
def cMerchant : RE := .grp 2 (.seq (.one .anyNN) (.star true (.one .anyNN)))

/-- `(?P<amount>-?\d+\.\d{2})`. -/
def cAmount : RE :=
  .grp 3 (seqs [.alt (.one (.lit '-')) .eps, digitPlus,
                .one (.lit '.'), .one .digit, .one .digit])

/-- `[A-Z]+\s+`. -/
def cUpWord : RE := .seq (.seq (.one .upperAZ) (.star false (.one .upperAZ))) spacePlus

/-- `(?:[A-Z]+\s+){1,3}` (greedy: three, then two, then one). -/
def cUp13 : RE := .seq cUpWord (.alt (.seq cUpWord (.alt cUpWord .eps)) .eps)

/-- Pattern 1: traditional format. -/
def citiP1 : Pat := ⟨false, seqs [cDateSp, spacePlus, cMerchant, spacePlus, cUp13, cAmount]⟩

/-- Pattern 2: newer format with `SGD`. -/
def citiP2 : Pat :=
  ⟨false, seqs [cDateSlash, spacePlus, cMerchant, spacePlus,
                csWord "SGD".data, spacePlus, cAmount]⟩

/-- Pattern 3: transactions with reference numbers. -/
def citiP3 : Pat :=
  ⟨false, seqs [cDateSp, spacePlus, .grp 4 digitPlus, spacePlus,
                cMerchant, spacePlus, cAmount]⟩

/-! ## Text cleaning (`extract_alphabets`, `extract_withdrawal`) -/

/-- Python `s.replace('\n', ' ')`. -/
def nlToSpace (s : List Char) : List Char :=
  s.map (fun c => if c = '\n' then ' ' else c)

/-- `extract_alphabets` of the UOB credit-card dashboard
(`pages/2_uob_statement_dashboard.py`): combine, kill newlines, strip,
remove `dd MMM` date noise, remove `SINGAPORE SG`, collapse multiple
whitespace to one space, replace runs of non-alphanumeric-non-space
characters by a space, strip. -/
def extractAlphabets (desc info : List Char) : List Char :=
  let combined := pyStrip (nlToSpace (desc ++ ' ' :: info))
  let c1 := subAll dateNoisePat [] none combined
  let c2 := subAll sgPat [] none c1
  let c3 := subAll collapsePat [' '] none c2
  pyStrip (subAll specialsPat [' '] none c3)

/-- `extract_alphabets` of the month-end dashboard
(`uob_statement_dashboard.py`): combine (empty when both parts are falsy),
remove `SINGAPORE SG`, replace runs of non-letters by a space, strip. -/
def extractAlphabetsME (desc info : List Char) : List Char :=
  let combined :=
    if desc = [] && info = [] then [] else pyStrip (nlToSpace (desc ++ ' ' :: info))
  let c1 := subAll sgPat [] none combined
  pyStrip (subAll nonLetterPat [' '] none c1)

/-- `extract_withdrawal` (`uob_statement_dashboard.py`): first
`\d+\.\d{2}` number of the comma-stripped combined text, as cents. -/
def extractWithdrawal (desc info : List Char) : Option Nat :=
  let cleaned :=
    if desc = [] && info = [] then [] else pyStrip (nlToSpace (desc ++ ' ' :: info))
  let cleaned := cleaned.filter (fun c => c ≠ ',')
  match findIter ewAmountPat none cleaned with
  | [] => none
  | cs :: _ => (getCap cs 0).bind parseCents

/-! ## Dates

Modelled from pandas `to_datetime(..., errors='coerce')` restricted to
the date-string shapes this repository produces (`d MMM yyyy`, month as a
case-insensitive English three-letter abbreviation); any other shape
coerces to `NaT`, embedded as `none`. -/

def monthNum (w : List Char) : Option Nat :=
  ([ ("jan", 1), ("feb", 2), ("mar", 3), ("apr", 4), ("may", 5), ("jun", 6),
     ("jul", 7), ("aug", 8), ("sep", 9), ("oct", 10), ("nov", 11), ("dec", 12)
   ].find? (fun p => p.1.data = strLower w)).map (fun p => p.2)

def isLeapYear (y : Nat) : Bool :=
  (y % 4 = 0 && y % 100 ≠ 0) || y % 400 = 0

def daysInMonth (m y : Nat) : Nat :=
  if m = 2 then (if isLeapYear y then 29 else 28)
  else if m = 4 || m = 6 || m = 9 || m = 11 then 30
  else 31

def parseDMonY (s : List Char) : Option (Nat × Nat × Nat) :=
  match splitWS s with
  | [d, mon, y] =>
    match digitsVal d, monthNum mon, digitsVal y with
    | some dd, some m, some yy =>
      if d.length ≤ 2 && 1 ≤ dd && dd ≤ daysInMonth m yy then some (yy, m, dd)
      else none
    | _, _, _ => none
  | _ => none

def pad2 (n : Nat) : List Char := if n < 10 then '0' :: natStr n else natStr n

/-- `Series.dt.strftime('%Y-%m-%d')`. -/
def formatYMD : Nat × Nat × Nat → List Char
  | (y, m, d) => natStr y ++ '-' :: pad2 m ++ '-' :: pad2 d

/-! ## UOB credit-card dashboard: `finalize_transaction` -/

/-- The `current_transaction` dict of `parse_with_formatting` /
`parse_with_newline_patterns`. -/
structure TxData where
  transaction_type : List Char
  description_parts : List (List Char)
  amounts : List (List Char)
  location : List Char
  deriving DecidableEq, Repr

/-- The standardized record returned by `finalize_transaction`. -/
structure Tx where
  date : List Char
  transaction_type : List Char
  description : List Char
  info : List Char
  withdrawal : Nat
  deposit : Nat
  balance : Nat
  deriving DecidableEq, Repr

def creditKeywords : List (List Char) :=
  ["inward".data, "credit".data, "cr-".data, "deposit".data,
   "refund".data, "reversal".data]

/-- `finalize_transaction(transaction_data, year)`: parse the collected
amount strings, classify credit/debit by keywords in the transaction
type, date from the first `\d{1,2}\s+\w{3}` in the description, balance
from the last amount when there is more than one. -/
def finalizeTransaction (t : TxData) (year : Nat) : Tx :=
  let description := pyStrip (List.intercalate [' '] t.description_parts)
  let parsed := (t.amounts.filter (fun a => a ≠ [])).filterMap parseCents
  let mainAmount := parsed.headD 0
  let transDate :=
    match (searchCaps dateSearchPat none description).bind (fun cs => getCap cs 1) with
    | some d => d
    | none => "01 Jan".data
  let isCredit :=
    creditKeywords.any (fun kw => containsSub kw (strLower t.transaction_type))
  { date := transDate ++ ' ' :: natStr year
    transaction_type := t.transaction_type
    description := description
    info := t.location
    withdrawal := if isCredit then 0 else mainAmount
    deposit := if isCredit then mainAmount else 0
    balance := if parsed.length > 1 then parsed.getLastD 0 else mainAmount }

/-! ## Grammar 1: `parse_with_formatting` -/

/-- A PyMuPDF text span: only the fields the parser reads. -/
structure Block where
  text : List Char
  bold : Bool
  deriving DecidableEq, Repr

def newTxData (t : List Char) : TxData := ⟨t, [], [], []⟩

/-- The non-bold branch: extend amounts with every amount in the text,
then record the text as location (if it mentions SINGAPORE / ends in
` SG`) or as a description part. -/
def pwfUpdate (cur : TxData) (text : List Char) : TxData :=
  let cur := { cur with amounts := cur.amounts ++ findAmounts text }
  if containsSub "SINGAPORE".data (strUpper text) || endsWithL " SG".data (strUpper text) then
    { cur with location := text }
  else
    { cur with description_parts := cur.description_parts ++ [text] }

def parseWithFormattingAux (year : Nat) : List Block → Option TxData → List Tx
  | [], cur =>
    match cur with
    | some c => [finalizeTransaction c year]
    | none => []
  | b :: rest, cur =>
    let text := pyStrip b.text
    if text = [] then parseWithFormattingAux year rest cur
    else if b.bold && text.length > 3 then
      match cur with
      | some c =>
        finalizeTransaction c year ::
          parseWithFormattingAux year rest (some (newTxData text))
      | none => parseWithFormattingAux year rest (some (newTxData text))
    else
      match cur with
      | some c => parseWithFormattingAux year rest (some (pwfUpdate c text))
      | none => parseWithFormattingAux year rest none

def parseWithFormatting (blocks : List Block) (year : Nat) : List Tx :=
  parseWithFormattingAux year blocks none

/-! ## Grammar 2: `parse_with_newline_patterns` -/

def nlPrefixes : List (List Char) :=
  ["NETS".data, "Misc".data, "PAYNOW".data, "Inward".data,
   "Balance".data, "DR-".data, "CR-".data]

/-- `re.match(r'^(NETS|Misc|PAYNOW|Inward|Balance|DR-|CR-)', line, re.IGNORECASE)`. -/
def startsWithCIAny (ps : List (List Char)) (line : List Char) : Bool :=
  ps.any (fun p => startsWithL (strUpper p) (strUpper line))

/-- Pattern 1 of the newline parser: an all-caps line longer than five
characters that is not purely numeric punctuation. -/
def isAllCapsStart (line : List Char) : Bool :=
  pyIsUpper line && line.length > 5 && !isNumSpacePunctLine line

/-- Pattern 5 of the newline parser: amounts inside a description line are
collected and stripped out of the description. -/
def pwnUpdate (cur : TxData) (line : List Char) : TxData :=
  match findAmounts line with
  | [] => { cur with description_parts := cur.description_parts ++ [line] }
  | ams =>
    let cur := { cur with amounts := cur.amounts ++ ams }
    let descLine := pyStrip (subAll amountPat [] none line)
    if descLine ≠ [] then
      { cur with description_parts := cur.description_parts ++ [descLine] }
    else cur

def parseWithNewlineAux (year : Nat) : List (List Char) → Option TxData → List Tx
  | [], cur =>
    match cur with
    | some c => [finalizeTransaction c year]
    | none => []
  | l :: rest, cur =>
    let line := pyStrip l
    if line = [] then parseWithNewlineAux year rest cur
    else if isAllCapsStart line then
      match cur with
      | some c =>
        finalizeTransaction c year ::
          parseWithNewlineAux year rest (some (newTxData line))
      | none => parseWithNewlineAux year rest (some (newTxData line))
    else if startsWithCIAny nlPrefixes line then
      match cur with
      | some c =>
        finalizeTransaction c year ::
          parseWithNewlineAux year rest (some (newTxData line))
      | none => parseWithNewlineAux year rest (some (newTxData line))
    else if isAmountLine line && cur.isSome then
      parseWithNewlineAux year rest
        (cur.map (fun c => { c with amounts := c.amounts ++ [line] }))
    else if containsSub "SINGAPORE".data (strUpper line) ||
        endsWithL " SG".data (strUpper line) then
      parseWithNewlineAux year rest (cur.map (fun c => { c with location := line }))
    else
      match cur with
      | some c => parseWithNewlineAux year rest (some (pwnUpdate c line))
      | none => parseWithNewlineAux year rest none

def parseWithNewlinePatterns (text : List Char) (year : Nat) : List Tx :=
  parseWithNewlineAux year (splitOnChar '\n' text) none

/-! ## Grammar 3: `parse_line_by_line_v2` -/

/-- A raw dict of the line-by-line parser; keys that the parser may never
set are `Option`s (a missing key becomes `NaN` in the DataFrame). -/
structure V2Row where
  transaction_type : List Char
  description : List Char
  withdrawal : Option Nat
  deposit : Option Nat
  balance : Option Nat
  date : Option (List Char)
  info : Option (List Char)
  deriving DecidableEq, Repr

def v2Types : List (List Char) :=
  ["NETS".data, "Misc DR".data, "PAYNOW".data, "Inward CR".data, "Balance".data]

def v2NewRow (line : List Char) : V2Row := ⟨line, [], none, none, none, none, none⟩

/-- `re.search(r'(\d{1,3}(?:,\d{3})*\.\d{2})', line)`, converted to cents. -/
def v2AmountOf (line : List Char) : Option Nat :=
  ((searchCaps amountPat none line).bind (fun cs => getCap cs 0)).bind parseCents

def parseLineV2Aux : List (List Char) → Option V2Row → List V2Row
  | [], cur =>
    match cur with
    | some c => [c]
    | none => []
  | l :: rest, cur =>
    let line := pyStrip l
    if line = [] then parseLineV2Aux rest cur
    else if v2Types.any (fun t => startsWithL t line) then
      match cur with
      | some c => c :: parseLineV2Aux rest (some (v2NewRow line))
      | none => parseLineV2Aux rest (some (v2NewRow line))
    else
      match v2AmountOf line, cur with
      | some amt, some c =>
        parseLineV2Aux rest (some
          (if containsSub "inward cr".data (strLower c.transaction_type) then
            { c with deposit := some amt, withdrawal := some 0, balance := some amt }
          else
            { c with withdrawal := some amt, deposit := some 0, balance := some amt }))
      | _, some c =>
        parseLineV2Aux rest (some
          { c with description :=
              if c.description ≠ [] then c.description ++ ' ' :: line else line })
      | _, none => parseLineV2Aux rest none

/-- `parse_line_by_line_v2`: scan, then add the missing `date` / `info`
keys. -/
def parseLineByLineV2 (text : List Char) (year : Nat) : List V2Row :=
  (parseLineV2Aux (splitOnChar '\n' text) none).map (fun r =>
    { r with
      date := some (r.date.getD ("01 Jan ".data ++ natStr year))
      info := some (r.info.getD []) })

/-! ## `parse_credit_card_transactions` -/

/-- A row of the DataFrame built from whichever grammar succeeded. -/
structure CCRow where
  date : List Char
  transaction_type : List Char
  description : List Char
  info : List Char
  withdrawal : Option Nat
  deposit : Option Nat
  balance : Option Nat
  deriving DecidableEq, Repr

def txToCCRow (t : Tx) : CCRow :=
  ⟨t.date, t.transaction_type, t.description, t.info,
   some t.withdrawal, some t.deposit, some t.balance⟩

def v2ToCCRow (r : V2Row) : CCRow :=
  ⟨r.date.getD [], r.transaction_type, r.description, r.info.getD [],
   r.withdrawal, r.deposit, r.balance⟩

/-- The grammar fallback chain: formatting blocks first (only consulted
when blocks exist), then newline patterns, then line-by-line. -/
def selectTransactions (text : List Char) (blocks : List Block) (year : Nat) :
    List CCRow :=
  let t1 := if blocks ≠ [] then (parseWithFormatting blocks year).map txToCCRow else []
  if t1 ≠ [] then t1
  else
    let t2 := (parseWithNewlinePatterns text year).map txToCCRow
    if t2 ≠ [] then t2
    else (parseLineByLineV2 text year).map v2ToCCRow

/-- Modelled from pandas: `DataFrame(list_of_dicts)` has a column iff some
record carries the key, and the `required_cols` loop assigns a scalar
default to a column only when the column is absent from every row. The
string columns (`date`, `description`, `info`) are always present in
every record each grammar emits, so only the numeric columns are checked. -/
def fillRequiredCols (rows : List CCRow) : List CCRow :=
  let rows :=
    if rows.all (fun r => r.withdrawal = none) then
      rows.map (fun r => { r with withdrawal := some 0 })
    else rows
  let rows :=
    if rows.all (fun r => r.deposit = none) then
      rows.map (fun r => { r with deposit := some 0 })
    else rows
  if rows.all (fun r => r.balance = none) then
    rows.map (fun r => { r with balance := some 0 })
  else rows

/-- `pd.to_datetime(errors='coerce')`, the `notna` filter, and
`dt.strftime('%Y-%m-%d')`. -/
def ccDateStep (rows : List CCRow) : List CCRow :=
  rows.filterMap (fun r =>
    (parseDMonY r.date).map (fun ymd => { r with date := formatYMD ymd }))

/-- The final record shape returned by `parse_credit_card_transactions`
(columns `date, transaction_type, clean_description, withdrawal, deposit,
balance`). -/
structure CCFinal where
  date : List Char
  transaction_type : List Char
  clean_description : List Char
  withdrawal : Option Nat
  deposit : Option Nat
  balance : Option Nat
  deriving DecidableEq, Repr

/-- `parse_credit_card_transactions(text, formatted_blocks, year)`. -/
def parseCreditCardTransactions (text : List Char) (blocks : List Block)
    (year : Nat) : List CCFinal :=
  let rows := selectTransactions text blocks year
  if rows = [] then []
  else
    let rows := ccDateStep (fillRequiredCols rows)
    let rows := rows.map (fun r =>
      (⟨r.date, r.transaction_type, extractAlphabets r.description r.info,
        r.withdrawal, r.deposit, r.balance⟩ : CCFinal))
    rows.filter (fun r => !(r.deposit.getD 0 = 0 && r.withdrawal.getD 0 = 0))

/-! ## The `df_clean` display/export stage of the UOB credit-card page -/

/-- Hard-coded repair of `One Bonus Interest` rows: the withdrawal value
moves to deposit and the withdrawal becomes `0`. -/
def bonusFix (r : CCFinal) : CCFinal :=
  if r.transaction_type = "One Bonus Interest".data then
    { r with deposit := r.withdrawal, withdrawal := some 0 }
  else r

/-- `df_clean` before the positional slice: drop `BALANCE B F` rows, then
apply the bonus-interest repair. -/
def dfCleanBase (rows : List CCFinal) : List CCFinal :=
  (rows.filter (fun r =>
    !containsSub "BALANCE B F".data (strUpper r.clean_description))).map bonusFix

/-- The displayed and exported table: `df_clean.reset_index(drop=True).iloc[2:]`. -/
def dfCleanExport (rows : List CCFinal) : List CCFinal :=
  (dfCleanBase rows).drop 2

deriving instance DecidableEq for Except

/-! ## Month-end dashboard (`uob_statement_dashboard.py`): `parse_month_end` -/

/-- A `match.groupdict()` row of the month-end regex, after the float
conversion loop and the `f"{date} {year}"` date rewrite. -/
structure MERow where
  date : List Char
  description : List Char
  info : List Char
  withdrawal : Option Nat
  deposit : Option Nat
  balance : Option Nat
  deriving DecidableEq, Repr

def meRowOfCaps (cs : Caps) (year : Nat) : MERow :=
  { date := (getCap cs 1).getD [] ++ ' ' :: natStr year
    description := (getCap cs 2).getD []
    info := (getCap cs 3).getD []
    withdrawal := (getCap cs 4).bind parseCents
    deposit := (getCap cs 5).bind parseCents
    balance := (getCap cs 6).bind parseCents }

/-- A row of the month-end DataFrame after cleaning, column-dropping and
reordering: `date, clean_description, clean_withdrawal, deposit, balance`
(`date` is a datetime, embedded as a year–month–day triple). -/
structure MEFinal where
  date : Nat × Nat × Nat
  clean_description : List Char
  clean_withdrawal : Option Nat
  deposit : Option Nat
  balance : Option Nat
  deriving DecidableEq, Repr

/-- One step of `impute_clean_withdrawal`: when the row has a (non-`NaN`)
deposit and its balance is strictly below the previous row's balance, the
deposit value moves to `clean_withdrawal` and the deposit becomes `None`.
A `NaN` on either side of the `<` makes the comparison false in pandas,
hence the requirement that both balances be present. -/
def imputeStep (prev r : MEFinal) : MEFinal :=
  match r.deposit, r.balance, prev.balance with
  | some dep, some cb, some pb =>
    if cb < pb then { r with clean_withdrawal := some dep, deposit := none }
    else r
  | _, _, _ => r

def imputeAux (prev : MEFinal) : List MEFinal → List MEFinal
  | [] => []
  | r :: rest => imputeStep prev r :: imputeAux r rest

/-- `impute_clean_withdrawal(df)`: the Python loop mutates only the
current row's `clean_withdrawal`/`deposit` and reads only the previous
row's `balance` (never mutated) and the current row's original `deposit`,
so the in-place loop equals this one-pass recursion over original rows. -/
def imputeCleanWithdrawal : List MEFinal → List MEFinal
  | [] => []
  | r :: rest => r :: imputeAux r rest

/-- Modelled from pandas: a DataFrame built from a list of record dicts
has exactly the keys of the records as columns, and one built from an
empty list has no columns at all. -/
def meColumns (rows : List MERow) : List (List Char) :=
  if rows = [] then []
  else ["date".data, "description".data, "info".data,
        "withdrawal".data, "deposit".data, "balance".data]

/-- `parse_month_end(text, year)`. Selecting a column that does not exist
raises a `KeyError` (modelled as `Except.error`); the first column access
is `df["date"]` on the right-hand side of the `to_datetime` assignment,
which therefore fails whenever the regex produced no match at all. After
that point every access is to a column that exists. -/
def parseMonthEnd (text : List Char) (year : Nat) :
    Except (List Char) (List MEFinal) :=
  let transactions := (findIter monthEndPat none text).map (fun cs => meRowOfCaps cs year)
  if "date".data ∈ meColumns transactions then
    let rows := transactions.filterMap (fun r =>
      (parseDMonY r.date).map (fun ymd => (r, ymd)))
    let rows := rows.map (fun rd =>
      ({ date := rd.2
         clean_description := extractAlphabetsME rd.1.description rd.1.info
         clean_withdrawal :=
           match extractWithdrawal rd.1.description rd.1.info with
           | some v => some v
           | none => rd.1.withdrawal
         deposit := rd.1.deposit
         balance := rd.1.balance } : MEFinal))
    .ok (imputeCleanWithdrawal rows)
  else .error "KeyError: date".data

/-- The rows of a successful `parse_month_end` run (empty on the failing
branch), used to state properties of the final month-end ledger. -/
def monthEndRows (text : List Char) (year : Nat) : List MEFinal :=
  match parseMonthEnd text year with
  | .ok rows => rows
  | .error _ => []

/-! ## Citibank dashboard: `parse_transactions` -/

structure CitiTx where
  Date : List Char
  Merchant : List Char
  Amount : Int
  Month : List Char
  deriving DecidableEq, Repr

/-- `datetime.strptime(month, '%m').strftime('%b').upper()` for a valid
month number. -/
def monthAbbrevUpper (n : Nat) : List Char :=
  (["JAN", "FEB", "MAR", "APR", "MAY", "JUN",
    "JUL", "AUG", "SEP", "OCT", "NOV", "DEC"].getD (n - 1) "").data

/-- The body of the citibank conversion loop; any exception (only
`strptime` on an invalid `%m` month can raise here) makes the candidate
be skipped (`except Exception: continue`), embedded as `none`. -/
def citiConvert (cs : Caps) (year : Nat) : Option CitiTx := do
  let dateStr ← getCap cs 1
  let merchant ← getCap cs 2
  let amount ← (getCap cs 3).bind parseCentsZ
  if dateStr.contains '/' then
    let day := dateStr.take 2
    let mnum ← digitsVal (dateStr.drop 3)
    if 1 ≤ mnum && mnum ≤ 12 then
      let ds := day ++ ' ' :: monthAbbrevUpper mnum
      return { Date := ds ++ ' ' :: natStr year, Merchant := pyStrip merchant,
               Amount := amount, Month := (splitWS ds).getD 1 [] }
    else none
  else
    return { Date := dateStr ++ ' ' :: natStr year, Merchant := pyStrip merchant,
             Amount := amount, Month := (splitWS dateStr).getD 1 [] }

def tryCitiPattern (p : Pat) (text : List Char) (year : Nat) : List CitiTx :=
  (findIter p none text).filterMap (fun cs => citiConvert cs year)

/-- `parse_transactions(text, year)`: the three patterns are tried in
order and the loop breaks as soon as one pattern contributed at least one
transaction. -/
def parseTransactionsCiti (text : List Char) (year : Nat) : List CitiTx :=
  let t1 := tryCitiPattern citiP1 text year
  if t1 ≠ [] then t1
  else
    let t2 := tryCitiPattern citiP2 text year
    if t2 ≠ [] then t2
    else tryCitiPattern citiP3 text year

/-! ## Merchant→category mapping store (`utils/mapping.py`)

`load_mapping` is `pd.read_csv` + `dict(zip(...))`; `save_mapping` is
`DataFrame(items).to_csv(index=False)`. The CSV codec is modelled from
pandas restricted to two-column files whose cells are either bare (no
comma, quote or newline) or double-quoted; pandas dtype inference and
NA-string conversion are not modelled — the round-trip theorem restricts
its cells (`safeCell`) to alphabetic strings on which `read_csv` performs
no conversion. -/

/-- Parse one CSV cell; returns the cell text and the remaining input.
A cell is either double-quoted (quote-free content) or bare (no comma or
quote, running to the next comma or the end of the line). -/
def parseCell : List Char → Option (List Char × List Char)
  | [] => some ([], [])
  | c :: rest =>
    if c = '"' then
      let content := rest.takeWhile (fun x => x ≠ '"')
      match rest.dropWhile (fun x => x ≠ '"') with
      | '"' :: rest2 => some (content, rest2)
      | _ => none
    else
      let content := (c :: rest).takeWhile (fun x => x ≠ ',')
      if content.any (fun x => x = '"') then none
      else some (content, (c :: rest).drop content.length)

/-- Parse a `Merchant,Category` data line into its two cells. -/
def parseLine2 (line : List Char) : Option (List Char × List Char) :=
  (parseCell line).bind (fun cr =>
    match cr.2 with
    | ',' :: rest2 =>
      (parseCell rest2).bind (fun cr2 =>
        if cr2.2 = [] then some (cr.1, cr2.1) else none)
    | _ => none)

/-- Python `dict` insertion: an existing key keeps its position and gets
the new value; a new key is appended. -/
def dictInsert (m : List (List Char × List Char)) (kv : List Char × List Char) :
    List (List Char × List Char) :=
  if m.any (fun p => p.1 = kv.1) then
    m.map (fun p => if p.1 = kv.1 then (p.1, kv.2) else p)
  else m ++ [kv]

/-- `load_mapping()` on the given file content:
`dict(zip(df["Merchant"], df["Category"]))`. `none` models the file
shapes outside the modelled CSV fragment. -/
def loadMapping (f : List Char) : Option (List (List Char × List Char)) :=
  let lines := (splitOnChar '\n' f).filter (fun l => l ≠ [])
  if lines.head? = some "Merchant,Category".data then
    ((lines.drop 1).mapM parseLine2).map (fun prs => prs.foldl dictInsert [])
  else none

/-- Minimal quoting of `to_csv` (`csv.QUOTE_MINIMAL`): quote only cells
containing a comma, quote, or line break; double inner quotes. -/
def encodeCell (c : List Char) : List Char :=
  if c.any (fun ch => ch = ',' || ch = '"' || ch = '\n' || ch = '\r') then
    '"' :: (c.flatMap (fun ch => if ch = '"' then ['"', '"'] else [ch])) ++ ['"']
  else c

/-- `save_mapping(mapping)`: header plus one `merchant,category` line per
entry, in mapping order, with a trailing newline. -/
def saveMapping (m : List (List Char × List Char)) : List Char :=
  "Merchant,Category\n".data ++
    (m.map (fun p => encodeCell p.1 ++ ',' :: encodeCell p.2 ++ ['\n'])).flatten

/-- Cells on which the unmodelled parts of `read_csv` (dtype inference,
NA strings, booleans) do nothing: nonempty, letters and spaces only, and
not an NA/boolean/infinity word. -/
def safeCell (c : List Char) : Bool :=
  c ≠ [] && c.all (fun ch => isAsciiLetter ch || ch = ' ') &&
    !(["na", "nan", "null", "none", "true", "false", "inf", "infinity"
      ].map String.data).contains (strLower c)

/-- The category assignment of the citibank page:
`df["Merchant"].map(merchant_to_category).fillna("")` — an exact,
case-sensitive dictionary lookup with `""` for misses. -/
def assignCategory (m : List (List Char × List Char)) (merchant : List Char) :
    List Char :=
  match m.find? (fun p => p.1 = merchant) with
  | some p => p.2
  | none => []

/-! ## Helper lemmas -/

theorem parseWithFormatting_nil (year : Nat) : parseWithFormatting [] year = [] := rfl

theorem imputeAux_get_zero (prev : MEFinal) (l : List MEFinal) :
    (imputeAux prev l)[0]? = l[0]?.map (imputeStep prev) := by
  cases l <;> simp [imputeAux]

theorem imputeAux_get_succ (l : List MEFinal) :
    ∀ (prev : MEFinal) (i : Nat) (pr r : MEFinal),
      l[i]? = some pr → l[i + 1]? = some r →
      (imputeAux prev l)[i + 1]? = some (imputeStep pr r) := by
  induction l with
  | nil => intro prev i pr r h; simp at h
  | cons x rest ih =>
    intro prev i pr r hp hr
    cases i with
    | zero =>
      simp at hp
      subst hp
      simp [imputeAux, imputeAux_get_zero] at hr ⊢
      simp [hr]
    | succ j =>
      simp [imputeAux] at hp hr ⊢
      exact ih x j pr r hp hr

/-! ## C1 -/

/-- C1 (counterexample): the month-end pipeline can finalize a ledger
record that is simultaneously a debit and a credit: on this two-line
statement the second record ends with `clean_withdrawal = 10.00` (found
inside the info text) and `deposit = 20.00`, both non-null, because the
imputation pass only repairs rows whose balance strictly decreased. -/
theorem C1_counterexample :
    ∃ r ∈ monthEndRows
        "01 MAR OPENING A 5.00\n02 MAR SHOP X 10.00 20.00 30.00".data 2024,
      r.clean_withdrawal ≠ none ∧ r.deposit ≠ none := by decide

/-- C1 (amended): every record produced by the credit-card reconciler
`finalize_transaction` has at most one of withdrawal/deposit non-zero
(the single classified amount goes to exactly one side); in the month-end
pipeline the invariant can fail, since a record whose balance did not
decrease keeps both a non-null `clean_withdrawal` and a non-null
`deposit`. -/
theorem C1_amended_at_most_one (t : TxData) (year : Nat) :
    (finalizeTransaction t year).withdrawal = 0 ∨
      (finalizeTransaction t year).deposit = 0 := by
  by_cases h : creditKeywords.any
      (fun kw => containsSub kw (strLower t.transaction_type)) = true
  · left; simp [finalizeTransaction, h]
  · right; simp [finalizeTransaction, h]

/-! ## C3 -/

/-- C3 (counterexample): on a raw token with exactly two amount
candidates `50.00`, `1200.00` plus balance `1150.00` and no credit
keyword, `finalize_transaction` does not apply any two-amount rule: the
first amount becomes the withdrawal, the deposit is `0.0` (not
`1200.00`), and the last amount becomes the balance. -/
theorem C3_counterexample :
    (finalizeTransaction
        ⟨"NETS".data, [], ["50.00".data, "1200.00".data, "1150.00".data], []⟩
        2024).withdrawal = 5000 ∧
    (finalizeTransaction
        ⟨"NETS".data, [], ["50.00".data, "1200.00".data, "1150.00".data], []⟩
        2024).deposit = 0 ∧
    (finalizeTransaction
        ⟨"NETS".data, [], ["50.00".data, "1200.00".data, "1150.00".data], []⟩
        2024).deposit ≠ 120000 := by decide

/-- C3 (amended): `finalize_transaction` uses only the first parsed
amount candidate as the transaction amount — withdrawal unless a credit
keyword occurs in the transaction type, deposit when one does — and the
last candidate as the balance whenever more than one is present; a middle
candidate is ignored entirely. -/
theorem C3_amended_first_amount_only (t : TxData) (year : Nat) (a : Nat)
    (rest : List Nat)
    (hp : (t.amounts.filter (fun s => s ≠ [])).filterMap parseCents = a :: rest) :
    (creditKeywords.any (fun kw => containsSub kw (strLower t.transaction_type)) = false →
      (finalizeTransaction t year).withdrawal = a ∧
        (finalizeTransaction t year).deposit = 0) ∧
    (creditKeywords.any (fun kw => containsSub kw (strLower t.transaction_type)) = true →
      (finalizeTransaction t year).deposit = a ∧
        (finalizeTransaction t year).withdrawal = 0) ∧
    (finalizeTransaction t year).balance =
      (if rest = [] then a else (a :: rest).getLastD 0) := by
  refine ⟨fun h => ?_, fun h => ?_, ?_⟩
  · simp only [finalizeTransaction]
    rw [hp]
    constructor <;> simp [h]
  · simp only [finalizeTransaction]
    rw [hp]
    constructor <;> simp [h]
  · simp only [finalizeTransaction]
    rw [hp]
    cases rest with
    | nil => simp
    | cons b bs => simp

/-- Witness for the amended C3 at the counterexample token. -/
theorem C3_amended_first_amount_only_witness :
    ((["50.00".data, "1200.00".data, "1150.00".data].filter
        (fun s => s ≠ [])).filterMap parseCents = [5000, 120000, 115000]) ∧
    (finalizeTransaction
        ⟨"NETS".data, [], ["50.00".data, "1200.00".data, "1150.00".data], []⟩
        2024).withdrawal = 5000 ∧
    (finalizeTransaction
        ⟨"NETS".data, [], ["50.00".data, "1200.00".data, "1150.00".data], []⟩
        2024).deposit = 0 :=
  ⟨by decide,
    (C3_amended_first_amount_only
        ⟨"NETS".data, [], ["50.00".data, "1200.00".data, "1150.00".data], []⟩
        2024 5000 [120000, 115000] (by decide)).1 (by decide)⟩

/-! ## C4 -/

/-- C4 (counterexample): the spec scenario itself fails. A record with a
single amount `100.00`, no credit keyword, previous balance `500.00` and
current balance `600.00` is classified as a withdrawal, not a deposit:
the month-end regex leaves the lone amount in the info text, so it lands
in `clean_withdrawal`, and no rule reclassifies by the (positive) balance
difference. -/
theorem C4_counterexample :
    (monthEndRows
        "01 MAR OPENING A 500.00\n02 MAR SHOPX B 100.00 600.00".data 2024)[1]? =
      some ⟨(2024, 3, 2), "SHOPX B".data, some 10000, none, some 60000⟩ := by
  decide

/-- C4 (amended): the only balance-difference rule in the code is
`impute_clean_withdrawal`, and it goes in one direction only: a record
with a non-null deposit is reclassified as a withdrawal (deposit moved to
`clean_withdrawal`, deposit nulled) exactly when the current balance is
strictly below the previous balance; a positive or zero difference leaves
the record unchanged (so a zero difference keeps the deposit), and a
record with a null deposit is never touched. -/
theorem C4_amended_balance_diff (rows : List MEFinal) (i : Nat)
    (prev r : MEFinal) (hp : rows[i]? = some prev)
    (hr : rows[i + 1]? = some r) :
    ((imputeCleanWithdrawal rows)[i + 1]? = some (imputeStep prev r)) ∧
    (∀ dep cb pb, r.deposit = some dep → r.balance = some cb →
      prev.balance = some pb →
      ((pb ≤ cb → imputeStep prev r = r) ∧
       (cb < pb → imputeStep prev r =
          { r with clean_withdrawal := some dep, deposit := none }))) ∧
    (r.deposit = none → imputeStep prev r = r) := by
  refine ⟨?_, fun dep cb pb hdep hcb hpb => ⟨fun hle => ?_, fun hlt => ?_⟩,
    fun hdep => ?_⟩
  · cases rows with
    | nil => simp at hp
    | cons x rest =>
      cases i with
      | zero =>
        simp at hp
        subst hp
        simp [imputeCleanWithdrawal, imputeAux_get_zero] at hr ⊢
        simp [hr]
      | succ j =>
        simp [imputeCleanWithdrawal] at hp hr ⊢
        exact imputeAux_get_succ rest x j prev r hp hr
  · simp [imputeStep, hdep, hcb, hpb, Nat.not_lt.mpr hle]
  · simp [imputeStep, hdep, hcb, hpb, hlt]
  · simp [imputeStep, hdep]

/-- Witness for the amended C4: with previous balance `500.00` and
current balance `600.00` (positive difference) the deposit row is left
unchanged — it stays a deposit. -/
theorem C4_amended_balance_diff_witness :
    (imputeCleanWithdrawal
        [⟨(2024, 3, 1), "A".data, none, none, some 50000⟩,
         ⟨(2024, 3, 2), "B".data, none, some 10000, some 60000⟩])[1]? =
      some ⟨(2024, 3, 2), "B".data, none, some 10000, some 60000⟩ := by
  have h := C4_amended_balance_diff
    [⟨(2024, 3, 1), "A".data, none, none, some 50000⟩,
     ⟨(2024, 3, 2), "B".data, none, some 10000, some 60000⟩]
    0 ⟨(2024, 3, 1), "A".data, none, none, some 50000⟩
    ⟨(2024, 3, 2), "B".data, none, some 10000, some 60000⟩ (by decide) (by decide)
  have hstep := (h.2.1 10000 60000 50000 rfl rfl rfl).1 (by decide)
  rw [h.1, hstep]

/-! ## C5 -/

/-- C5: the claim is the stated intent (all-grammars-empty surfaces as an
empty result, never an exception), but `parse_month_end` violates it: on
any text where the regex finds no transaction (for example the empty
string, or plain prose) the DataFrame has no columns at all, and the
`df["date"]` read inside the `to_datetime` assignment raises `KeyError`
instead of returning an empty result. -/
theorem C5_no_match_keyerror :
    parseMonthEnd [] 2024 = .error "KeyError: date".data ∧
    parseMonthEnd "hello".data 2024 = .error "KeyError: date".data := by decide

/-! ## C8 -/

/-- C8 (counterexample): after loading a mapping file with the row
`NTUC,Groceries`, a record whose merchant text is `ntuc` (different case)
is not assigned `Groceries`: the lookup
`df["Merchant"].map(mapping).fillna("")` is exact and case-sensitive, so
the record gets the empty category. -/
theorem C8_counterexample :
    assignCategory ((loadMapping "Merchant,Category\nNTUC,Groceries\n".data).getD [])
      "ntuc".data ≠ "Groceries".data := by decide

/-- C8 (amended): the categorization lookup is an exact, case-sensitive
dictionary lookup: with the mapping file `NTUC,Groceries` loaded, the
merchant `NTUC` is assigned `Groceries` and the merchant `ntuc` is left
uncategorized (empty category). -/
theorem C8_amended_case_sensitive :
    assignCategory ((loadMapping "Merchant,Category\nNTUC,Groceries\n".data).getD [])
      "NTUC".data = "Groceries".data ∧
    assignCategory ((loadMapping "Merchant,Category\nNTUC,Groceries\n".data).getD [])
      "ntuc".data = [] := by decide

/-! ## C9 -/

/-- C9: the final UOB credit-card DataFrame never contains a record whose
withdrawal and deposit are both zero or null (`NaN` reads as `0` through
`fillna(0)`): the last cleaning step of `parse_credit_card_transactions`
filters every such row out, for every input text, block list and year. -/
theorem C9_no_zero_rows (text : List Char) (blocks : List Block) (year : Nat)
    (r : CCFinal) (hr : r ∈ parseCreditCardTransactions text blocks year) :
    ¬(r.withdrawal.getD 0 = 0 ∧ r.deposit.getD 0 = 0) := by
  unfold parseCreditCardTransactions at hr
  by_cases hsel : selectTransactions text blocks year = []
  · simp [hsel] at hr
  · simp only [hsel, if_neg, ite_false] at hr
    rcases List.mem_filter.mp hr with ⟨-, hcond⟩
    intro hc
    rw [hc.1, hc.2] at hcond
    simp at hcond

/-- Witness for C9 at a concrete statement text whose parse is nonempty. -/
theorem C9_no_zero_rows_witness :
    (⟨"2024-01-17".data, "NETS QR PAYMENT".data, "COFFEE".data,
        some 500, some 0, some 500⟩ : CCFinal) ∈
      parseCreditCardTransactions "NETS QR PAYMENT\n17 Jan COFFEE\n5.00".data [] 2024 ∧
    ¬((some 500 : Option Nat).getD 0 = 0 ∧ (some 0 : Option Nat).getD 0 = 0) :=
  ⟨by decide,
    C9_no_zero_rows "NETS QR PAYMENT\n17 Jan COFFEE\n5.00".data [] 2024
      ⟨"2024-01-17".data, "NETS QR PAYMENT".data, "COFFEE".data,
        some 500, some 0, some 500⟩ (by decide)⟩

/-! ## C10 -/

/-- C10: the displayed/exported table is `df_clean.reset_index().iloc[2:]`:
it always equals the cleaned table shifted by two positions, so whatever
their content, the records at positions 0 and 1 of the cleaned DataFrame
(Balance-B/F rows filtered, bonus-interest repair applied) never appear in
the CSV export. -/
theorem C10_export_drops_first_two (rows : List CCFinal) :
    (dfCleanExport rows).length = (dfCleanBase rows).length - 2 ∧
    ∀ i : Nat, (dfCleanExport rows)[i]? = (dfCleanBase rows)[i + 2]? := by
  constructor
  · simp [dfCleanExport]
  · intro i
    rw [dfCleanExport, List.getElem?_drop, Nat.add_comm]

/-! ## C2 -/

/-- C2: both fallback chains take the first grammar variant with a
non-empty token list and never merge: for the UOB credit-card page,
formatting blocks win when they yield tokens, otherwise the newline
grammar, otherwise the line-by-line grammar; for the citibank page the
three regex patterns are tried in order. Each conjunct states that when
every higher-priority variant yields zero tokens and a variant yields
some, that variant alone is the result. -/
theorem C2_fallback_first_nonempty (text : List Char) (blocks : List Block)
    (year : Nat) :
    (parseWithFormatting blocks year ≠ [] →
      selectTransactions text blocks year =
        (parseWithFormatting blocks year).map txToCCRow) ∧
    (parseWithFormatting blocks year = [] →
      parseWithNewlinePatterns text year ≠ [] →
      selectTransactions text blocks year =
        (parseWithNewlinePatterns text year).map txToCCRow) ∧
    (parseWithFormatting blocks year = [] →
      parseWithNewlinePatterns text year = [] →
      selectTransactions text blocks year =
        (parseLineByLineV2 text year).map v2ToCCRow) ∧
    (tryCitiPattern citiP1 text year ≠ [] →
      parseTransactionsCiti text year = tryCitiPattern citiP1 text year) ∧
    (tryCitiPattern citiP1 text year = [] →
      tryCitiPattern citiP2 text year ≠ [] →
      parseTransactionsCiti text year = tryCitiPattern citiP2 text year) ∧
    (tryCitiPattern citiP1 text year = [] →
      tryCitiPattern citiP2 text year = [] →
      parseTransactionsCiti text year = tryCitiPattern citiP3 text year) := by
  refine ⟨fun h1 => ?_, fun h1 h2 => ?_, fun h1 h2 => ?_,
    fun h1 => ?_, fun h1 h2 => ?_, fun h1 h2 => ?_⟩
  · by_cases hb : blocks = []
    · subst hb; exact absurd (parseWithFormatting_nil year) h1
    · simp [selectTransactions, hb, h1]
  · by_cases hb : blocks = [] <;> simp [selectTransactions, hb, h1, h2]
  · by_cases hb : blocks = [] <;> simp [selectTransactions, hb, h1, h2]
  · simp [parseTransactionsCiti, h1]
  · simp [parseTransactionsCiti, h1, h2]
  · simp [parseTransactionsCiti, h1, h2]

/-- Witness for C2: a UOB text on which the formatting grammar yields
nothing and the newline grammar wins, and a citibank text matched only by
the third (lowest-priority) pattern, with patterns one and two yielding
zero tokens first. -/
theorem C2_fallback_first_nonempty_witness :
    parseWithFormatting [] 2024 = [] ∧
    parseWithNewlinePatterns "NETS QR PAYMENT\n17 Jan COFFEE\n5.00".data 2024 ≠ [] ∧
    selectTransactions "NETS QR PAYMENT\n17 Jan COFFEE\n5.00".data [] 2024 =
      (parseWithNewlinePatterns "NETS QR PAYMENT\n17 Jan COFFEE\n5.00".data 2024).map
        txToCCRow ∧
    tryCitiPattern citiP1 "01 JAN 123 shop 5.00".data 2024 = [] ∧
    tryCitiPattern citiP2 "01 JAN 123 shop 5.00".data 2024 = [] ∧
    tryCitiPattern citiP3 "01 JAN 123 shop 5.00".data 2024 ≠ [] ∧
    parseTransactionsCiti "01 JAN 123 shop 5.00".data 2024 =
      tryCitiPattern citiP3 "01 JAN 123 shop 5.00".data 2024 :=
  ⟨by decide, by decide,
    (C2_fallback_first_nonempty "NETS QR PAYMENT\n17 Jan COFFEE\n5.00".data [] 2024).2.1
      (by decide) (by decide),
    by decide, by decide, by decide,
    (C2_fallback_first_nonempty "01 JAN 123 shop 5.00".data [] 2024).2.2.2.2.2
      (by decide) (by decide)⟩

/-! ## C7 -/

theorem letter_space_facts (ch : Char)
    (h : (isAsciiLetter ch || ch = ' ') = true) :
    ch ≠ ',' ∧ ch ≠ '"' ∧ ch ≠ '\n' ∧ ch ≠ '\r' := by
  refine ⟨?_, ?_, ?_, ?_⟩ <;> (rintro rfl; exact absurd h (by decide))

theorem splitOnChar_append (sep : Char) (l rest : List Char)
    (h : ∀ c ∈ l, c ≠ sep) :
    splitOnChar sep (l ++ sep :: rest) = l :: splitOnChar sep rest := by
  induction l with
  | nil => simp [splitOnChar]
  | cons c l2 ih =>
    have hc : c ≠ sep := h c (by simp)
    have ih2 := ih (fun x hx => h x (by simp [hx]))
    simp only [List.cons_append, splitOnChar, List.append_eq, ih2, if_neg hc]

theorem safeCell_chars (c : List Char) (h : safeCell c = true) :
    ∀ ch ∈ c, ch ≠ ',' ∧ ch ≠ '"' ∧ ch ≠ '\n' ∧ ch ≠ '\r' := by
  intro ch hch
  unfold safeCell at h
  have hall := (Bool.and_eq_true_iff.mp ((Bool.and_eq_true_iff.mp h).1)).2
  exact letter_space_facts ch (by
    have := List.all_eq_true.mp hall ch hch
    simpa using this)

theorem encodeCell_safe (c : List Char) (h : safeCell c = true) :
    encodeCell c = c := by
  have hfalse : (c.any fun ch =>
      ch = ',' || ch = '"' || ch = '\n' || ch = '\r') = false := by
    rw [List.any_eq_false]
    intro ch hch
    have hf := safeCell_chars c h ch hch
    simp [hf.1, hf.2.1, hf.2.2.1, hf.2.2.2]
  unfold encodeCell
  rw [hfalse]
  simp

theorem parseCell_bare (k rest : List Char)
    (hk : ∀ ch ∈ k, ch ≠ ',' ∧ ch ≠ '"') :
    parseCell (k ++ ',' :: rest) = some (k, ',' :: rest) := by
  have hnoq : ∀ (l : List Char), (∀ ch ∈ l, ch ≠ '"') →
      (l.any fun x => x = '"') = false := by
    intro l hl
    rw [List.any_eq_false]
    intro ch hch
    simp [hl ch hch]
  cases k with
  | nil =>
    simp only [List.nil_append]
    simp only [parseCell]
    rw [if_neg (by decide)]
    simp [List.takeWhile]
  | cons c k2 =>
    have hc := hk c (by simp)
    have htake : ((c :: k2) ++ ',' :: rest).takeWhile (fun x => x ≠ ',') = c :: k2 := by
      rw [List.takeWhile_append_of_pos (by
        intro x hx; simpa using (hk x hx).1)]
      simp [List.takeWhile]
    rw [List.cons_append]
    simp only [parseCell]
    rw [if_neg hc.2]
    simp only [← List.cons_append, htake]
    rw [if_neg (by
      simp [hnoq (c :: k2) (fun ch hch => (hk ch hch).2)])]
    rw [List.drop_left]

theorem parseCell_whole (v : List Char)
    (hv : ∀ ch ∈ v, ch ≠ ',' ∧ ch ≠ '"') :
    parseCell v = some (v, []) := by
  have htake : v.takeWhile (fun x => x ≠ ',') = v := by
    rw [List.takeWhile_eq_self_iff.mpr]
    intro c hc; simpa using (hv c hc).1
  cases v with
  | nil => rfl
  | cons c v2 =>
    have hq : c ≠ '"' := (hv c (by simp)).2
    simp only [parseCell]
    rw [if_neg hq]
    simp only [htake]
    rw [if_neg (by
      rw [Bool.not_eq_true, List.any_eq_false]
      intro ch hch
      simp [(hv ch hch).2])]
    simp

theorem parseLine2_roundtrip (k v : List Char)
    (hk : safeCell k = true) (hv : safeCell v = true) :
    parseLine2 (k ++ ',' :: v) = some (k, v) := by
  unfold parseLine2
  rw [parseCell_bare k v (fun ch hch => ⟨(safeCell_chars k hk ch hch).1,
        (safeCell_chars k hk ch hch).2.1⟩)]
  have hw := parseCell_whole v (fun ch hch => ⟨(safeCell_chars v hv ch hch).1,
        (safeCell_chars v hv ch hch).2.1⟩)
  simp [hw]

theorem mapM_parseLine2 (rows : List (List Char × List Char))
    (hsafe : ∀ p ∈ rows, safeCell p.1 = true ∧ safeCell p.2 = true) :
    (rows.map (fun p => p.1 ++ ',' :: p.2)).mapM parseLine2 = some rows := by
  induction rows with
  | nil => rfl
  | cons p rest ih =>
    have hp := hsafe p (by simp)
    simp only [List.map_cons, List.mapM_cons,
      parseLine2_roundtrip p.1 p.2 hp.1 hp.2,
      ih (fun q hq => hsafe q (by simp [hq])), Option.bind_some]
    rfl

theorem foldl_dictInsert (rows : List (List Char × List Char)) :
    ∀ acc : List (List Char × List Char),
      (∀ p ∈ rows, ∀ q ∈ acc, q.1 ≠ p.1) →
      (rows.map Prod.fst).Nodup →
      rows.foldl dictInsert acc = acc ++ rows := by
  induction rows with
  | nil => intro acc _ _; simp
  | cons p rest ih =>
    intro acc hdisj hnodup
    rw [List.map_cons, List.nodup_cons] at hnodup
    obtain ⟨hpnot, hnodup2⟩ := hnodup
    have hany : acc.any (fun q => q.1 = p.1) = false := by
      rw [List.any_eq_false]
      intro q hq
      simpa using hdisj p (by simp) q hq
    have hstep : dictInsert acc p = acc ++ [p] := by
      unfold dictInsert
      rw [hany]
      simp
    simp only [List.foldl_cons, hstep]
    rw [ih (acc ++ [p]) ?_ hnodup2]
    · simp
    · intro x hx q hq
      rcases List.mem_append.mp hq with hq1 | hq2
      · exact hdisj x (by simp [hx]) q hq1
      · have hqp : q = p := by simpa using hq2
        subst hqp
        intro hqe
        exact hpnot (by
          rw [hqe]
          exact List.mem_map.mpr ⟨x, hx, rfl⟩)

theorem splitBody (rows : List (List Char × List Char))
    (hsafe : ∀ p ∈ rows, safeCell p.1 = true ∧ safeCell p.2 = true) :
    splitOnChar '\n'
        ((rows.map (fun p =>
          encodeCell p.1 ++ ',' :: encodeCell p.2 ++ ['\n'])).flatten) =
      (rows.map (fun p => p.1 ++ ',' :: p.2)) ++ [[]] := by
  induction rows with
  | nil => simp [splitOnChar]
  | cons p rest ih =>
    have hp := hsafe p (by simp)
    have hline : ∀ c ∈ p.1 ++ ',' :: p.2, c ≠ '\n' := by
      intro c hc
      rcases List.mem_append.mp hc with h1 | h2
      · exact (safeCell_chars p.1 hp.1 c h1).2.2.1
      · rcases List.mem_cons.mp h2 with rfl | h3
        · decide
        · exact (safeCell_chars p.2 hp.2 c h3).2.2.1
    simp only [List.map_cons, List.flatten_cons,
      encodeCell_safe p.1 hp.1, encodeCell_safe p.2 hp.2]
    have hassoc : (p.1 ++ ',' :: p.2 ++ ['\n']) ++
        (rest.map (fun p => encodeCell p.1 ++ ',' :: encodeCell p.2 ++ ['\n'])).flatten =
        (p.1 ++ ',' :: p.2) ++ '\n' ::
          (rest.map (fun p => encodeCell p.1 ++ ',' :: encodeCell p.2 ++ ['\n'])).flatten := by
      simp
    rw [hassoc, splitOnChar_append '\n' _ _ hline,
      ih (fun q hq => hsafe q (by simp [hq]))]
    simp

/-- The `load_mapping` / `save_mapping` inverse direction behind the
amended C7. -/
theorem loadMapping_saveMapping (rows : List (List Char × List Char))
    (hsafe : rows.all (fun p => safeCell p.1 && safeCell p.2) = true)
    (hkeys : (rows.map Prod.fst).Nodup) :
    loadMapping (saveMapping rows) = some rows := by
  have hsafe2 : ∀ p ∈ rows, safeCell p.1 = true ∧ safeCell p.2 = true := by
    intro p hp
    have := List.all_eq_true.mp hsafe p hp
    exact Bool.and_eq_true_iff.mp (by simpa using this)
  have hsave : saveMapping rows = "Merchant,Category".data ++ '\n' ::
      (rows.map (fun p => encodeCell p.1 ++ ',' :: encodeCell p.2 ++ ['\n'])).flatten := by
    unfold saveMapping
    rfl
  simp only [loadMapping]
  rw [hsave, splitOnChar_append '\n' _ _ (by decide), splitBody rows hsafe2]
  have hmap : List.filter (fun l => l ≠ [])
      (rows.map (fun p => p.1 ++ ',' :: p.2)) =
      rows.map (fun p => p.1 ++ ',' :: p.2) := by
    rw [List.filter_eq_self]
    intro l hl
    rcases List.mem_map.mp hl with ⟨p, hp, rfl⟩
    simp
  have hfilter : (("Merchant,Category".data ::
        ((rows.map (fun p => p.1 ++ ',' :: p.2)) ++ [[]])).filter
      (fun l => l ≠ [])) =
      "Merchant,Category".data :: rows.map (fun p => p.1 ++ ',' :: p.2) := by
    rw [List.filter_cons_of_pos (by decide), List.filter_append, hmap,
        List.filter_cons_of_neg (by decide), List.filter_nil]
    simp
  rw [hfilter]
  simp only [List.head?_cons, List.drop_one, List.tail_cons]
  simp only [if_true]
  rw [mapM_parseLine2 rows hsafe2]
  rw [show Option.map (fun prs => List.foldl dictInsert [] prs) (some rows) =
      some (List.foldl dictInsert [] rows) from rfl]
  rw [foldl_dictInsert rows [] (by simp) hkeys]
  rfl

/-- C7 (counterexample): loading and immediately saving a well-formed
mapping file is not byte-for-byte the identity: a quoted field is read
back unquoted, so `"NTUC",Groceries` is rewritten as `NTUC,Groceries`. -/
theorem C7_counterexample :
    ∃ m, loadMapping "Merchant,Category\n\"NTUC\",Groceries\n".data = some m ∧
      saveMapping m ≠ "Merchant,Category\n\"NTUC\",Groceries\n".data := by decide

/-- C7 (amended): the round trip is the identity exactly on canonical
mapping files: header `Merchant,Category`, rows of nonempty unquoted
cells (letters and spaces, not an NA/boolean-like word — on which pandas
performs no dtype or NA conversion) with unique merchant keys and a
trailing newline. For every such canonical file `f = saveMapping rows`,
`saveMapping (loadMapping f) = f`; files outside this class (quoted
cells, duplicate keys, numeric- or NA-shaped cells, missing trailing
newline) are canonicalized rather than preserved byte for byte. -/
theorem C7_amended_roundtrip (rows : List (List Char × List Char))
    (hsafe : rows.all (fun p => safeCell p.1 && safeCell p.2) = true)
    (hkeys : (rows.map Prod.fst).Nodup) :
    (loadMapping (saveMapping rows)).map saveMapping = some (saveMapping rows) := by
  rw [loadMapping_saveMapping rows hsafe hkeys]
  rfl

/-- Witness for the amended C7 on a two-row mapping. -/
theorem C7_amended_roundtrip_witness :
    (loadMapping (saveMapping
        [("NTUC".data, "Groceries".data), ("Cold Storage".data, "Food".data)])).map
      saveMapping =
    some (saveMapping
        [("NTUC".data, "Groceries".data), ("Cold Storage".data, "Food".data)]) :=
  C7_amended_roundtrip
    [("NTUC".data, "Groceries".data), ("Cold Storage".data, "Food".data)]
    (by decide) (by decide)

/-! ## C6 -/

theorem reMatchStep_seq
    (next : RE → List Char → Caps → Cont → Option (List Char × Caps))
    (a b : RE) (s : List Char) (cs : Caps) (k : Cont) :
    reMatchStep next (.seq a b) s cs k =
      reMatchStep next a s cs (fun s1 c1 => reMatchStep next b s1 c1 k) := rfl

theorem reMatchStep_one
    (next : RE → List Char → Caps → Cont → Option (List Char × Caps))
    (cc : CC) (c : Char) (rest : List Char) (cs : Caps) (k : Cont) :
    reMatchStep next (.one cc) (c :: rest) cs k =
      if ccMatch cc c then k rest cs else none := rfl

theorem reMatchStep_star_greedy
    (next : RE → List Char → Caps → Cont → Option (List Char × Caps))
    (a : RE) (s : List Char) (cs : Caps) (k : Cont) :
    reMatchStep next (.star false a) s cs k =
      (match reMatchStep next a s cs (fun s1 c1 =>
          if s1.length < s.length then next (.star false a) s1 c1 k else none) with
        | some r1 => some r1
        | none => k s cs) := rfl

theorem seqs_cons (r : RE) (rs : List RE) : seqs (r :: rs) = .seq r (seqs rs) := rfl

theorem ciWord_cons (c : Char) (w : List Char) :
    ciWord (c :: w) = .seq (.one (.litCI c)) (ciWord w) := rfl

theorem subAllF_nil (p : Pat) (repl : List Char) (fuel : Nat) (prev : Option Char) :
    subAllF p repl fuel prev [] = [] := by cases fuel <;> rfl

/-- An ASCII character whose `pyToUpper` image is an uppercase letter is
neither Python whitespace nor a digit. -/
theorem pyToUpper_upper_facts (c x : Char) (h : pyToUpper c = x)
    (hx : isAsciiUpper x = true) :
    isPySpace c = false ∧ isAsciiDigit c = false := by
  unfold pyToUpper at h
  by_cases hl : isAsciiLower c = true
  · constructor
    · by_contra hs
      rw [Bool.not_eq_false] at hs
      have hcases : ((((c = ' ' ∨ c = '\t') ∨ c = '\n') ∨ c = '\x0d') ∨ c = '\x0b') ∨
          c = '\x0c' := by
        unfold isPySpace at hs
        simpa using hs
      rcases hcases with ⟨⟨⟨⟨rfl | rfl⟩ | rfl⟩ | rfl⟩ | rfl⟩ | rfl <;>
        exact absurd hl (by decide)
    · have h1 : 'a' ≤ c := by
        unfold isAsciiLower at hl
        have := (Bool.and_eq_true_iff.mp hl).1
        simpa using this
      unfold isAsciiDigit
      by_cases hd : c ≤ '9'
      · exact absurd (Char.le_trans h1 hd) (by decide)
      · simp [hd]
  · rw [if_neg hl] at h
    subst h
    have h1 : 'A' ≤ c := by
      unfold isAsciiUpper at hx
      have := (Bool.and_eq_true_iff.mp hx).1
      simpa using this
    constructor
    · by_contra hs
      rw [Bool.not_eq_false] at hs
      have hcases : ((((c = ' ' ∨ c = '\t') ∨ c = '\n') ∨ c = '\x0d') ∨ c = '\x0b') ∨
          c = '\x0c' := by
        unfold isPySpace at hs
        simpa using hs
      rcases hcases with ⟨⟨⟨⟨rfl | rfl⟩ | rfl⟩ | rfl⟩ | rfl⟩ | rfl <;>
        exact absurd h1 (by decide)
    · unfold isAsciiDigit
      by_cases hd : c ≤ '9'
      · exact absurd (Char.le_trans h1 hd) (by decide)
      · simp [hd]

/-- Every character of a string whose uppercased form is a given
all-uppercase word is neither whitespace nor a digit. -/
theorem strUpper_facts (u w : List Char) (h : strUpper u = w)
    (hw : w.all isAsciiUpper = true) :
    ∀ c ∈ u, isPySpace c = false ∧ isAsciiDigit c = false := by
  intro c hc
  have hmem : pyToUpper c ∈ w := by
    rw [← h]
    exact List.mem_map_of_mem pyToUpper hc
  exact pyToUpper_upper_facts c (pyToUpper c) rfl (List.all_eq_true.mp hw _ hmem)

theorem nlToSpace_id (l : List Char) (h : ∀ c ∈ l, c ≠ '\n') :
    nlToSpace l = l := by
  induction l with
  | nil => rfl
  | cons c t ih =>
    unfold nlToSpace at ih ⊢
    simp only [List.map_cons, if_neg (h c (by simp)), List.cons.injEq]
    refine ⟨trivial, ?_⟩
    exact ih (fun x hx => h x (by simp [hx]))

/-- A case-insensitive literal word consumes exactly a case-variant of
itself. -/
theorem ciWord_match (w : List Char) :
    ∀ (u rest : List Char)
      (next : RE → List Char → Caps → Cont → Option (List Char × Caps))
      (cs : Caps) (k : Cont),
      strUpper u = strUpper w →
      reMatchStep next (ciWord w) (u ++ rest) cs k = k rest cs := by
  induction w with
  | nil =>
    intro u rest next cs k h
    have hu : u = [] := by
      cases u with
      | nil => rfl
      | cons a u2 => simp [strUpper] at h
    subst hu
    rfl
  | cons c w2 ih =>
    intro u rest next cs k h
    cases u with
    | nil => simp [strUpper] at h
    | cons a u2 =>
      have h1 : pyToUpper a = pyToUpper c := by
        have := congrArg List.head? h
        simpa [strUpper] using this
      have h2 : strUpper u2 = strUpper w2 := by
        have := congrArg List.tail h
        simpa [strUpper] using this
      rw [ciWord_cons, reMatchStep_seq, List.cons_append,
        reMatchStep_one, if_pos (by simp [ccMatch, h1])]
      exact ih u2 rest next cs k h2

/-- A greedy space star consumes a whole run of spaces up to a non-space
(or end of input) and then continues. -/
theorem starSpace_match (sp : List Char) :
    ∀ (fuel : Nat) (w : List Char) (cs : Caps) (k : Cont)
      (res : List Char × Caps),
      sp.length ≤ fuel → sp.all (fun c => c = ' ') = true →
      (∀ c ∈ w.head?, isPySpace c = false) →
      k w cs = some res →
      reMatchStep (reMatch fuel) (.star false (.one .space)) (sp ++ w) cs k =
        some res := by
  induction sp with
  | nil =>
    intro fuel w cs k res _ _ hw hk
    rw [reMatchStep_star_greedy]
    cases w with
    | nil => simpa using hk
    | cons c t =>
      have hc := hw c rfl
      rw [List.nil_append, reMatchStep_one, if_neg (by simp [ccMatch, hc])]
      simpa using hk
  | cons c sp2 ih =>
    intro fuel w cs k res hfuel hsp hw hk
    have hc : c = ' ' := by
      have := List.all_eq_true.mp hsp c (by simp)
      simpa using this
    subst hc
    cases fuel with
    | zero => simp at hfuel
    | succ f =>
      rw [reMatchStep_star_greedy, List.cons_append, reMatchStep_one,
        if_pos (by simp [ccMatch, isPySpace])]
      have hlt : (sp2 ++ w).length < (' ' :: (sp2 ++ w)).length := by simp
      rw [if_pos hlt]
      have hrec : reMatch (f + 1) (.star false (.one .space)) (sp2 ++ w) cs k =
          some res := by
        rw [show reMatch (f + 1) = reMatchStep (reMatch f) from rfl]
        exact ih f w cs k res (by simpa using hfuel)
          (by
            rw [List.all_cons] at hsp
            exact (Bool.and_eq_true_iff.mp hsp).2) hw hk
      rw [hrec]

/-- The `\s+` of the SINGAPORE-SG pattern consumes a nonempty space run. -/
theorem spacePlus_match (sp : List Char) (fuel : Nat) (w : List Char)
    (cs : Caps) (k : Cont) (res : List Char × Caps)
    (hne : sp ≠ []) (hsp : sp.all (fun c => c = ' ') = true)
    (hfuel : sp.length ≤ fuel + 1)
    (hw : ∀ c ∈ w.head?, isPySpace c = false)
    (hk : k w cs = some res) :
    reMatchStep (reMatch fuel) spacePlus (sp ++ w) cs k = some res := by
  cases sp with
  | nil => exact absurd rfl hne
  | cons c sp2 =>
    have hc : c = ' ' := by
      have := List.all_eq_true.mp hsp c (by simp)
      simpa using this
    subst hc
    rw [show spacePlus = .seq (.one .space) (.star false (.one .space)) from rfl,
      reMatchStep_seq, List.cons_append, reMatchStep_one,
      if_pos (by simp [ccMatch, isPySpace])]
    exact starSpace_match sp2 fuel w cs k res (by simpa using hfuel)
      (by
        rw [List.all_cons] at hsp
        exact (Bool.and_eq_true_iff.mp hsp).2) hw hk

theorem ciWord_match_exact (w u : List Char)
    (next : RE → List Char → Caps → Cont → Option (List Char × Caps))
    (cs : Caps) (k : Cont) (h : strUpper u = strUpper w) :
    reMatchStep next (ciWord w) u cs k = k [] cs := by
  have hm := ciWord_match w u [] next cs k h
  rwa [List.append_nil] at hm

/-- The date-noise pattern starts with `\d{2}`, so it cannot match at a
non-digit character. -/
theorem dateNoise_matchAt_none (c : Char) (rest : List Char)
    (hc : isAsciiDigit c = false) :
    matchAt dateNoisePat.re (c :: rest) = none := by
  unfold matchAt
  rw [show reMatch ((c :: rest).length + 1) =
      reMatchStep (reMatch ((c :: rest).length)) from rfl]
  rw [show dateNoisePat.re = seqs [d2, .one .space, monthsAlt, .nWord] from rfl,
    seqs_cons, reMatchStep_seq,
    show d2 = .seq (.one .digit) (.one .digit) from rfl, reMatchStep_seq,
    reMatchStep_one, if_neg (by simp [ccMatch, hc])]

theorem dateSub_id_aux (s : List Char) :
    ∀ (fuel : Nat) (prev : Option Char),
      (∀ c ∈ s, isAsciiDigit c = false) →
      subAllF dateNoisePat [] fuel prev s = s := by
  induction s with
  | nil => intro fuel prev _; exact subAllF_nil _ _ _ _
  | cons c rest ih =>
    intro fuel prev h
    cases fuel with
    | zero => rfl
    | succ f =>
      have hpat : patAt dateNoisePat prev (c :: rest) = none := by
        unfold patAt
        by_cases hb : (dateNoisePat.leftBoundary &&
            (match prev with | some c => isWordChar c | none => false)) = true
        · rw [if_pos hb]
        · rw [if_neg hb, dateNoise_matchAt_none c rest (h c (by simp))]
          rfl
      simp only [subAllF, hpat]
      rw [ih f (some c) (fun x hx => h x (by simp [hx]))]

/-- `re.sub` with the date-noise pattern is the identity on digit-free
text. -/
theorem dateSub_id (s : List Char) (prev : Option Char)
    (h : ∀ c ∈ s, isAsciiDigit c = false) :
    subAll dateNoisePat [] prev s = s :=
  dateSub_id_aux s (s.length + 1) prev h

/-- Stripping a string that starts and ends in non-whitespace and carries
one trailing space removes exactly that trailing space. -/
theorem pyStrip_clean (a : Char) (mid : List Char) (b : Char)
    (ha : isPySpace a = false) (hb : isPySpace b = false) :
    pyStrip ((a :: (mid ++ [b])) ++ [' ']) = a :: (mid ++ [b]) := by
  unfold pyStrip pyStripL pyStripR
  rw [List.cons_append, List.dropWhile_cons, if_neg (by simp [ha])]
  rw [List.reverse_cons, List.reverse_append, List.reverse_append]
  simp only [List.reverse_singleton, List.cons_append, List.singleton_append,
    List.append_assoc]
  rw [List.dropWhile_cons, if_pos (by decide)]
  simp only [List.nil_append]
  rw [List.dropWhile_cons, if_neg (by simp [hb])]
  simp

/-- The SINGAPORE-whitespace-SG pattern fully matches any of its case
variants with any nonempty internal space run. -/
theorem sg_matchAt (u sp v : List Char)
    (hu : strUpper u = "SINGAPORE".data) (hne : sp ≠ [])
    (hsp : sp.all (fun c => c = ' ') = true)
    (hv : strUpper v = "SG".data) :
    matchAt sgPat.re (u ++ sp ++ v) = some ([], []) := by
  obtain ⟨b1, b2, rfl⟩ : ∃ b1 b2, v = [b1, b2] := by
    rcases v with _ | ⟨b1, _ | ⟨b2, _ | ⟨b3, t⟩⟩⟩
    · simp [strUpper] at hv
    · simp [strUpper] at hv
    · exact ⟨b1, b2, rfl⟩
    · simp [strUpper] at hv
  have hb : pyToUpper b1 = 'S' ∧ pyToUpper b2 = 'G' := by
    simpa [strUpper] using hv
  have hb1s : isPySpace b1 = false :=
    (pyToUpper_upper_facts b1 'S' hb.1 (by decide)).1
  unfold matchAt
  rw [show reMatch ((u ++ sp ++ [b1, b2]).length + 1) =
      reMatchStep (reMatch ((u ++ sp ++ [b1, b2]).length)) from rfl]
  rw [show sgPat.re = .seq (ciWord "SINGAPORE".data)
      (seqs [spacePlus, ciWord "SG".data, .nWord]) from rfl]
  rw [reMatchStep_seq, List.append_assoc,
    ciWord_match "SINGAPORE".data u (sp ++ [b1, b2]) _ _ _
      (by rw [hu]; decide)]
  show reMatchStep (reMatch ((u ++ (sp ++ [b1, b2])).length))
      (seqs [spacePlus, ciWord "SG".data, RE.nWord]) (sp ++ [b1, b2]) []
      (fun rest cs => some (rest, cs)) = some ([], [])
  rw [seqs_cons, reMatchStep_seq]
  refine spacePlus_match sp _ [b1, b2] [] _ ([], []) hne hsp
    (by simp only [List.length_append, List.length_cons, List.length_nil]; omega)
    ?_ ?_
  · intro c hc
    have hcb : b1 = c := by simpa using hc
    exact hcb ▸ hb1s
  · show reMatchStep (reMatch ((u ++ (sp ++ [b1, b2])).length))
        (seqs [ciWord "SG".data, RE.nWord]) [b1, b2] []
        (fun rest cs => some (rest, cs)) = some ([], [])
    rw [seqs_cons, reMatchStep_seq,
      ciWord_match_exact "SG".data [b1, b2] _ _ _
        (by simp [strUpper, hb.1, hb.2]; decide)]
    rfl

/-- `re.sub` of the SINGAPORE-SG pattern on a standalone case variant
removes everything. -/
theorem sgSub_kills (u sp v : List Char)
    (hu : strUpper u = "SINGAPORE".data) (hne : sp ≠ [])
    (hsp : sp.all (fun c => c = ' ') = true)
    (hv : strUpper v = "SG".data) :
    subAll sgPat [] none (u ++ sp ++ v) = [] := by
  obtain ⟨a, u2, rfl⟩ : ∃ a u2, u = a :: u2 := by
    cases u with
    | nil => simp [strUpper] at hu
    | cons a u2 => exact ⟨a, u2, rfl⟩
  have hmatch := sg_matchAt (a :: u2) sp v hu hne hsp hv
  rw [List.cons_append, List.cons_append] at hmatch
  have hpat : patAt sgPat none (a :: (u2 ++ sp ++ v)) =
      some ((a :: (u2 ++ sp ++ v)).length, []) := by
    unfold patAt
    rw [if_neg (by simp [sgPat]), hmatch]
    simp
  unfold subAll
  rw [List.cons_append, List.cons_append]
  simp only [subAllF, hpat]
  rw [if_pos (by simp)]
  simp [List.drop_length, subAllF_nil]

/-- C6 (counterexample): merchant normalization is not idempotent — the
punctuation-to-space replacement can leave runs of several spaces, which
only a second pass collapses: normalizing `A. .B` once gives `A   B`,
normalizing it again gives `A B`. -/
theorem C6_counterexample :
    extractAlphabets (extractAlphabets "A. .B".data []) [] ≠
      extractAlphabets "A. .B".data [] := by decide

/-- C6 (amended): normalization is idempotent on every input whose
normalized form is already a fixed point of each cleaning stage (no
newline, stripped, no double whitespace, no `dd MMM` date token, no
`SINGAPORE SG` token, no special characters); in general a second pass
can rewrite the output further. The SINGAPORE-SG clause holds: any case
variant of `SINGAPORE`, any nonempty run of spaces, then any case variant
of `SG` normalizes to the empty string — it contributes nothing. -/
theorem C6_amended_idempotence :
    (∀ x : List Char,
      pyStrip (nlToSpace (extractAlphabets x [] ++ ' ' :: [])) =
        extractAlphabets x [] →
      subAll dateNoisePat [] none (extractAlphabets x []) =
        extractAlphabets x [] →
      subAll sgPat [] none (extractAlphabets x []) = extractAlphabets x [] →
      subAll collapsePat [' '] none (extractAlphabets x []) =
        extractAlphabets x [] →
      subAll specialsPat [' '] none (extractAlphabets x []) =
        extractAlphabets x [] →
      pyStrip (extractAlphabets x []) = extractAlphabets x [] →
      extractAlphabets (extractAlphabets x []) [] = extractAlphabets x []) ∧
    (∀ u sp v : List Char,
      strUpper u = "SINGAPORE".data → sp ≠ [] →
      sp.all (fun c => c = ' ') = true → strUpper v = "SG".data →
      extractAlphabets (u ++ sp ++ v) [] = []) := by
  constructor
  · intro x h1 h2 h3 h4 h5 h6
    conv_lhs => rw [extractAlphabets]
    rw [h1, h2, h3, h4, h5, h6]
  · intro u sp v hu hne hsp hv
    obtain ⟨a, u2, rfl⟩ : ∃ a u2, u = a :: u2 := by
      cases u with
      | nil => simp [strUpper] at hu
      | cons a u2 => exact ⟨a, u2, rfl⟩
    obtain ⟨b1, b2, rfl⟩ : ∃ b1 b2, v = [b1, b2] := by
      rcases v with _ | ⟨b1, _ | ⟨b2, _ | ⟨b3, t⟩⟩⟩
      · simp [strUpper] at hv
      · simp [strUpper] at hv
      · exact ⟨b1, b2, rfl⟩
      · simp [strUpper] at hv
    have hufacts := strUpper_facts (a :: u2) "SINGAPORE".data hu (by decide)
    have hvfacts := strUpper_facts [b1, b2] "SG".data hv (by decide)
    have hnospace : ∀ c ∈ (a :: u2) ++ sp ++ [b1, b2],
        isPySpace c = false ∨ c = ' ' := by
      intro c hc
      rcases List.mem_append.mp hc with hc1 | hc2
      · rcases List.mem_append.mp hc1 with hcu | hcsp
        · exact Or.inl (hufacts c hcu).1
        · exact Or.inr (by simpa using List.all_eq_true.mp hsp c hcsp)
      · exact Or.inl (hvfacts c hc2).1
    have hchars : ∀ c ∈ ((a :: u2) ++ sp ++ [b1, b2]) ++ ' ' :: [], c ≠ '\n' := by
      intro c hc
      rcases List.mem_append.mp hc with hc1 | hc2
      · rcases hnospace c hc1 with hns | hsp1
        · intro heq
          rw [heq] at hns
          exact absurd hns (by decide)
        · rw [hsp1]; decide
      · have : c = ' ' := by simpa using hc2
        rw [this]; decide
    have hnodigit : ∀ c ∈ (a :: u2) ++ sp ++ [b1, b2],
        isAsciiDigit c = false := by
      intro c hc
      rcases List.mem_append.mp hc with hc1 | hc2
      · rcases List.mem_append.mp hc1 with hcu | hcsp
        · exact (hufacts c hcu).2
        · have : c = ' ' := by simpa using List.all_eq_true.mp hsp c hcsp
          rw [this]; decide
      · exact (hvfacts c hc2).2
    have hstrip : pyStrip (((a :: u2) ++ sp ++ [b1, b2]) ++ [' ']) =
        (a :: u2) ++ sp ++ [b1, b2] := by
      have hshape : ((a :: u2) ++ sp ++ [b1, b2]) ++ [' '] =
          (a :: ((u2 ++ sp ++ [b1]) ++ [b2])) ++ [' '] := by simp
      rw [hshape, pyStrip_clean a (u2 ++ sp ++ [b1]) b2
        (hufacts a (by simp)).1 (hvfacts b2 (by simp)).1]
      simp
    rw [extractAlphabets]
    rw [nlToSpace_id _ hchars]
    rw [show ((a :: u2) ++ sp ++ [b1, b2]) ++ ' ' :: [] =
        ((a :: u2) ++ sp ++ [b1, b2]) ++ [' '] from rfl, hstrip]
    rw [dateSub_id _ none hnodigit]
    rw [sgSub_kills (a :: u2) sp [b1, b2] hu hne hsp hv]
    rfl

/-- Witness for the amended C6: a clean merchant string is a fixed point
(idempotence applies), and a concrete `Singapore   sg` collapses to the
empty string. -/
theorem C6_amended_idempotence_witness :
    extractAlphabets (extractAlphabets "FAIRPRICE FINEST".data []) [] =
      extractAlphabets "FAIRPRICE FINEST".data [] ∧
    extractAlphabets ("Singapore".data ++ "   ".data ++ "sg".data) [] = [] :=
  ⟨C6_amended_idempotence.1 "FAIRPRICE FINEST".data (by decide) (by decide)
      (by decide) (by decide) (by decide) (by decide),
    C6_amended_idempotence.2 "Singapore".data "   ".data "sg".data
      (by decide) (by decide) (by decide) (by decide)⟩

end CitiDash
